import Mathlib

/-!
Shallow embedding of the front-end controller of `ai-doc-translator`
(`main.ts`, the variant with the two polling loops).  The file models the
mutable session state (globals plus the DOM fields the code writes), the
two interval ticks, the one-shot final refresh scheduled on a finished
task, and the user-triggered handlers.  Network calls are modelled by
passing their outcome (`Except String α`: `.error msg` is a thrown fetch
failure carrying the response text) as an explicit argument; handlers
additionally return a `Bool` recording whether a network request was
issued on that path.
-/

/-- A JavaScript number as far as the progress logic observes it:
finite (a rational) or one of the non-finite values. -/
inductive JsNum where
  | nan
  | inf
  | negInf
  | num (q : ℚ)
deriving DecidableEq, Repr

/-- The JavaScript finiteness test `Number.isFinite`. -/
def JsNum.isFinite : JsNum → Bool
  | .num _ => true
  | _ => false

/-- The rational value of a finite `JsNum` (unused on non-finite inputs,
which the code guards with `Number.isFinite`). -/
def JsNum.toRat : JsNum → ℚ
  | .num q => q
  | _ => 0

/-- One block as returned by `GET /api/tasks/:id/blocks`.  `source_text`
and `translated_text` are nullable (`none` models `null`/missing; the
code reads them as `b.source_text || ""`). -/
structure Block where
  id : String
  order_no : Int
  status : String
  source_text : Option String
  translated_text : Option String
deriving DecidableEq, Repr

/-- Response of `GET /api/tasks/:id`; every field may be absent
(the code reads `t.progress ?? 0`, `t.status ?? ""`, `if (t.error)`). -/
structure TaskResp where
  progress : Option JsNum
  status : Option String
  error : Option String
deriving DecidableEq, Repr

/-- Response of `POST /api/tasks` (task creation). -/
structure UploadResp where
  task_id : String
  blocks : Int
deriving DecidableEq, Repr

/-- The session state: the module-level globals of `main.ts` plus the DOM
fields the controller writes.  Timers are modelled by whether the interval
is active; the one-shot `setTimeout` of the finished branch is modelled by
`pendingFinal`, the number of queued (not yet fired) final refreshes.
`dstFocused` models `document.activeElement.id === "dstText"`; it is an
environment fact the code only reads. -/
structure AppState where
  currentTaskId : Option String
  currentBlockId : Option String
  pollTaskTimer : Bool
  pollBlocksTimer : Bool
  blocksLoaded : Bool
  blocksCache : List Block
  pendingFinal : Nat
  dstFocused : Bool
  srcText : String
  dstText : String
  blockList : List String
  progressBarVal : ℚ
  progressPct : String
  progressStatus : String
  progressHint : String
  progressCounts : String
  blockHint : String
  taskHint : String
deriving DecidableEq, Repr

/-- Rounding as `Math.round` on a rational: nearest integer, halves toward `+∞`. -/
def jsRound (q : ℚ) : Int := ⌊q + 1/2⌋

/-- Model of `setProgress(p, status)`: clamp the value (non-finite becomes 0), set
the bar, the percent label and the status label. -/
def setProgress (s : AppState) (p : JsNum) (status : String) : AppState :=
  let val : ℚ := max 0 (min 1 (if p.isFinite then p.toRat else 0))
  { s with
    progressBarVal := val
    progressPct := toString (jsRound (val * 100)) ++ "%"
    progressStatus := if status = "" then "" else "Status: " ++ status }

/-- Model of `stopPolling()`: clear both interval timers. -/
def stopPolling (s : AppState) : AppState :=
  { s with pollTaskTimer := false, pollBlocksTimer := false }

/-- Model of `startPolling()`: stop, then install both interval timers. -/
def startPolling (s : AppState) : AppState :=
  { stopPolling s with pollTaskTimer := true, pollBlocksTimer := true }

/-- The characters the rendering treats as whitespace (the ASCII core of
the JavaScript `\s` class; the rare Unicode space code points are not
distinguished by any property proved here). -/
def isJsWs (c : Char) : Bool :=
  c = ' ' || c = '\t' || c = '\n' || c = '\r' || c = '\x0b' || c = '\x0c'

/-- Core of `replace(/\s+/g, " ")`: collapse each maximal whitespace run
to a single space.  The flag says whether we are inside a run. -/
def collapseWsAux : Bool → List Char → List Char
  | _, [] => []
  | inRun, c :: cs =>
    if isJsWs c then
      if inRun then collapseWsAux true cs
      else ' ' :: collapseWsAux true cs
    else c :: collapseWsAux false cs

/-- Whitespace collapsing as in `t.replace(/\s+/g, " ")`. -/
def collapseWs (t : String) : String :=
  ⟨collapseWsAux false t.data⟩

/-- Text content of one summary-list item:
`#${b.order_no} [${b.status}] ${src}` with `src` the collapsed,
60-character-truncated source text. -/
def renderItem (b : Block) : String :=
  "#" ++ toString b.order_no ++ " [" ++ b.status ++ "] "
    ++ (collapseWs (b.source_text.getD "")).take 60

/-- Number of blocks counted as done: status `translated` or `edited`. -/
def doneCount (blocks : List Block) : Nat :=
  (blocks.filter (fun b => b.status == "translated" || b.status == "edited")).length

/-- The `progressCounts` line `Blocks: ${done} / ${total}`. -/
def countsLine (blocks : List Block) : String :=
  "Blocks: " ++ toString (doneCount blocks) ++ " / " ++ toString blocks.length

/-- Body of `refreshBlocks` after a successful fetch: replace the cache
wholesale, update the counts line, re-render the list, and — only when
`keepSelection` is set, a block is selected and the destination input does
not hold focus — load the selected block's fresh text into the buffers. -/
def refreshBlocksOk (s : AppState) (keepSelection : Bool) (blocks : List Block) :
    AppState :=
  let s1 := { s with
    blocksCache := blocks
    progressCounts := countsLine blocks
    blockList := blocks.map renderItem }
  if keepSelection then
    match s1.currentBlockId with
    | some bid =>
      if s1.dstFocused then s1
      else
        match blocks.find? (fun b => b.id == bid) with
        | some b =>
          { s1 with
            srcText := b.source_text.getD ""
            dstText := b.translated_text.getD "" }
        | none => s1
    | none => s1
  else s1

/-- Model of `refreshBlocks(keepSelection)`: returns early when no task is current
(no fetch), otherwise performs the fetch, whose outcome is `resp`; a
failed fetch rethrows to the caller.  The `Bool` records whether the
fetch was issued. -/
def refreshBlocksF (s : AppState) (keepSelection : Bool)
    (resp : Except String (List Block)) : Except String AppState × Bool :=
  if s.currentTaskId.isNone then (.ok s, false)
  else
    match resp with
    | .error msg => (.error msg, true)
    | .ok blocks => (.ok (refreshBlocksOk s keepSelection blocks), true)

/-- One tick of the 1 s task-poll interval.  Early return when no task;
fetch failure is caught and ignored.  On success: display progress, show
a truthy `error`, and on terminal status queue the one final blocks
refresh and/or stop both timers. -/
def pollTaskTick (s : AppState) (resp : Except String TaskResp) :
    AppState × Bool :=
  if s.currentTaskId.isNone then (s, false)
  else
    match resp with
    | .error _ => (s, true)
    | .ok t =>
      let s1 := setProgress s (t.progress.getD (.num 0)) (t.status.getD "")
      let s2 :=
        match t.error with
        | some e => if e = "" then s1 else { s1 with progressHint := "Error: " ++ e }
        | none => s1
      let s3 :=
        if t.status = some "finished" then
          stopPolling { s2 with pendingFinal := s2.pendingFinal + 1 }
        else s2
      let s4 := if t.status = some "error" then stopPolling s3 else s3
      (s4, true)

/-- One tick of the 2.5 s blocks-poll interval: only fetches when a task
is current and the user has loaded the blocks list; any thrown failure is
caught and ignored. -/
def pollBlocksTick (s : AppState) (resp : Except String (List Block)) :
    AppState × Bool :=
  if s.currentTaskId.isNone then (s, false)
  else if !s.blocksLoaded then (s, false)
  else
    match refreshBlocksF s true resp with
    | (.ok s1, f) => (s1, f)
    | (.error _, f) => (s, f)

/-- Firing of the one-shot `setTimeout(() => refreshBlocks(false).catch(() => {}), 300)`
queued by the finished branch: consume one queued refresh and run
`refreshBlocks(false)`, swallowing any failure. -/
def runFinalRefresh (s : AppState) (resp : Except String (List Block)) :
    AppState :=
  let s0 := { s with pendingFinal := s.pendingFinal - 1 }
  match (refreshBlocksF s0 false resp).1 with
  | .ok s1 => s1
  | .error _ => s0

/-- The synchronous reset block at the top of the `createTask` handler:
stop both timers, then clear the blocks state, selection, buffers and
hints, and show progress 0 / `created`. -/
def createTaskReset (s : AppState) : AppState :=
  let s0 := stopPolling s
  let s1 := { s0 with
    blocksLoaded := false
    blocksCache := []
    currentBlockId := none
    blockList := []
    srcText := ""
    dstText := ""
    blockHint := ""
    progressHint := ""
    progressCounts := "" }
  setProgress s1 (.num 0) "created"

/-- The `createTask` click handler.  `hasFile` is whether a file is
selected; `resp` the outcome of the upload `POST /api/tasks`.  The
current task id is only overwritten after a successful response. -/
def createTask (s : AppState) (hasFile : Bool)
    (resp : Except String UploadResp) : AppState × Bool :=
  if !hasFile then ({ s with taskHint := "Please select a .docx file." }, false)
  else
    let s1 := createTaskReset s
    match resp with
    | .error msg => ({ s1 with taskHint := msg }, true)
    | .ok out =>
      let s2 := { s1 with
        currentTaskId := some out.task_id
        taskHint := "Task created: " ++ out.task_id ++ "\nBlocks: "
          ++ toString out.blocks }
      (startPolling s2, true)

/-- The `runTranslate` click handler; `resp` carries the rendered JSON
echo of a successful `POST .../run_translate`. -/
def runTranslate (s : AppState) (resp : Except String String) :
    AppState × Bool :=
  if s.currentTaskId.isNone then
    ({ s with progressHint := "Please create a task first." }, false)
  else
    match resp with
    | .error msg => ({ s with progressHint := msg }, true)
    | .ok out => (startPolling { s with progressHint := out }, true)

/-- The `loadBlocks` click handler: mark the cache loaded, do one
immediate refresh (selection not re-applied), report the count and ensure
polling runs; a thrown failure lands in `blockHint`. -/
def loadBlocks (s : AppState) (resp : Except String (List Block)) :
    AppState × Bool :=
  if s.currentTaskId.isNone then
    ({ s with blockHint := "Please create a task first." }, false)
  else
    let s1 := { s with blocksLoaded := true }
    match refreshBlocksF s1 false resp with
    | (.ok s2, _) =>
      (startPolling { s2 with
        blockHint := "Loaded blocks: " ++ toString s2.blocksCache.length }, true)
    | (.error msg, _) => ({ s1 with blockHint := msg }, true)

/-- The `saveBlock` click handler: requires a current task and a selected
block; `patchResp` is the PATCH outcome (rendered JSON on success),
`refreshResp` the outcome of the follow-up refresh when the cache is
loaded. -/
def saveBlock (s : AppState) (patchResp : Except String String)
    (refreshResp : Except String (List Block)) : AppState × Bool :=
  if s.currentTaskId.isNone || s.currentBlockId.isNone then
    ({ s with blockHint := "Please select a block first." }, false)
  else
    match patchResp with
    | .error msg => ({ s with blockHint := msg }, true)
    | .ok out =>
      let s1 := { s with blockHint := out }
      if s1.blocksLoaded then
        match refreshBlocksF s1 true refreshResp with
        | (.ok s2, _) => (s2, true)
        | (.error msg, _) => ({ s1 with blockHint := msg }, true)
      else (s1, true)

/-- The `exportDocx` click handler (the download itself is opaque). -/
def exportDocx (s : AppState) (resp : Except String Unit) :
    AppState × Bool :=
  if s.currentTaskId.isNone then
    ({ s with progressHint := "Please create a task first." }, false)
  else
    match resp with
    | .error msg => ({ s with progressHint := msg }, true)
    | .ok _ =>
      ({ s with progressHint :=
        "Download started: translated.docx (check your default Downloads folder)." },
       true)

/-- The click handler installed on one summary-list item: select the
block and load its stored text into the buffers. -/
def selectBlock (s : AppState) (b : Block) : AppState :=
  { s with
    currentBlockId := some b.id
    srcText := b.source_text.getD ""
    dstText := b.translated_text.getD ""
    blockHint := "Selected block: " ++ b.id }

/-- Scheduler events: one firing of either interval timer, or of the
queued one-shot final refresh; each carries its fetch outcome. -/
inductive Ev where
  | taskTick (r : Except String TaskResp)
  | blocksTick (r : Except String (List Block))
  | finalFire (r : Except String (List Block))

/-- An event can fire only while its timer is installed (for the one-shot,
only while a queued refresh remains). -/
def enabledEv (s : AppState) : Ev → Bool
  | .taskTick _ => s.pollTaskTimer
  | .blocksTick _ => s.pollBlocksTimer
  | .finalFire _ => decide (0 < s.pendingFinal)

/-- Effect of one scheduler event on the state. -/
def applyEv (s : AppState) : Ev → AppState
  | .taskTick r => (pollTaskTick s r).1
  | .blocksTick r => (pollBlocksTick s r).1
  | .finalFire r => runFinalRefresh s r

/-- Reachability relation: `Run s evs s'` says the event sequence `evs` fires from `s` (each event
enabled when it fires) and ends in `s'`. -/
inductive Run : AppState → List Ev → AppState → Prop where
  | nil (s : AppState) : Run s [] s
  | cons {s s' : AppState} {e : Ev} {evs : List Ev} :
      enabledEv s e = true → Run (applyEv s e) evs s' → Run s (e :: evs) s'

/-- Number of task-poll ticks in an event sequence. -/
def countTaskTicks : List Ev → Nat
  | [] => 0
  | .taskTick _ :: evs => countTaskTicks evs + 1
  | _ :: evs => countTaskTicks evs

/-- Number of blocks-poll ticks in an event sequence. -/
def countBlocksTicks : List Ev → Nat
  | [] => 0
  | .blocksTick _ :: evs => countBlocksTicks evs + 1
  | _ :: evs => countBlocksTicks evs

/-- Number of final-refresh firings in an event sequence. -/
def countFinalFires : List Ev → Nat
  | [] => 0
  | .finalFire _ :: evs => countFinalFires evs + 1
  | _ :: evs => countFinalFires evs

/-- Iterated block refreshes with `keepSelection = true`, one per
successive snapshot: arbitrarily many consecutive blocks-poll ticks. -/
def refreshMany (s : AppState) : List (List Block) → AppState
  | [] => s
  | bs :: rest => refreshMany (refreshBlocksOk s true bs) rest

/-- The user-triggered handlers that touch the core state, with their
network outcomes attached (the settings handler writes only its own hint
and is omitted). -/
inductive UAction where
  | createTaskA (hasFile : Bool) (r : Except String UploadResp)
  | runTranslateA (r : Except String String)
  | loadBlocksA (r : Except String (List Block))
  | saveBlockA (rp : Except String String) (rr : Except String (List Block))
  | exportA (r : Except String Unit)
  | selectA (b : Block)

/-- Whether the action is the `loadBlocks` click. -/
def UAction.isLoadBlocks : UAction → Bool
  | .loadBlocksA _ => true
  | _ => false

/-- Effect of one user action on the state. -/
def applyAction (s : AppState) : UAction → AppState
  | .createTaskA hasFile r => (createTask s hasFile r).1
  | .runTranslateA r => (runTranslate s r).1
  | .loadBlocksA r => (loadBlocks s r).1
  | .saveBlockA rp rr => (saveBlock s rp rr).1
  | .exportA r => (exportDocx s r).1
  | .selectA b => selectBlock s b

/-- A concrete baseline state for the concrete instantiations below. -/
def state0 : AppState :=
  { currentTaskId := none
    currentBlockId := none
    pollTaskTimer := false
    pollBlocksTimer := false
    blocksLoaded := false
    blocksCache := []
    pendingFinal := 0
    dstFocused := false
    srcText := ""
    dstText := ""
    blockList := []
    progressBarVal := 0
    progressPct := "0%"
    progressStatus := ""
    progressHint := ""
    progressCounts := ""
    blockHint := ""
    taskHint := "" }

/-- A concrete block used in concrete instantiations. -/
def blockA : Block :=
  { id := "b1", order_no := 1, status := "translated",
    source_text := some "hello", translated_text := some "bonjour" }

/-- A second concrete block. -/
def blockB : Block :=
  { id := "b2", order_no := 2, status := "pending",
    source_text := some "world", translated_text := none }

/-- A concrete state with both poll loops running on task `t1`. -/
def runningState : AppState :=
  { state0 with
    currentTaskId := some "t1"
    pollTaskTimer := true
    pollBlocksTimer := true }

/-- A concrete status response reporting a finished task. -/
def finishedResp : TaskResp :=
  { progress := some (.num 1), status := some "finished", error := none }

/-- A concrete state on task `t1` with the blocks list loaded. -/
def dupState : AppState :=
  { state0 with
    currentTaskId := some "t1"
    blocksLoaded := true }

/-- A concrete state with a task, a selected block and edited buffers. -/
def editState : AppState :=
  { state0 with
    currentTaskId := some "t1"
    currentBlockId := some "b1"
    srcText := "s"
    dstText := "d" }

theorem refreshBlocksOk_fields (s : AppState) (k : Bool) (blocks : List Block) :
    (refreshBlocksOk s k blocks).currentTaskId = s.currentTaskId ∧
    (refreshBlocksOk s k blocks).currentBlockId = s.currentBlockId ∧
    (refreshBlocksOk s k blocks).pollTaskTimer = s.pollTaskTimer ∧
    (refreshBlocksOk s k blocks).pollBlocksTimer = s.pollBlocksTimer ∧
    (refreshBlocksOk s k blocks).blocksLoaded = s.blocksLoaded ∧
    (refreshBlocksOk s k blocks).pendingFinal = s.pendingFinal ∧
    (refreshBlocksOk s k blocks).dstFocused = s.dstFocused ∧
    (refreshBlocksOk s k blocks).progressBarVal = s.progressBarVal ∧
    (refreshBlocksOk s k blocks).progressStatus = s.progressStatus ∧
    (refreshBlocksOk s k blocks).progressHint = s.progressHint ∧
    (refreshBlocksOk s k blocks).blockHint = s.blockHint ∧
    (refreshBlocksOk s k blocks).taskHint = s.taskHint ∧
    (refreshBlocksOk s k blocks).blocksCache = blocks ∧
    (refreshBlocksOk s k blocks).progressCounts = countsLine blocks ∧
    (refreshBlocksOk s k blocks).blockList = blocks.map renderItem := by
  cases hk : k
  · simp [refreshBlocksOk]
  · rcases hb : s.currentBlockId with _ | bid
    · simp [refreshBlocksOk, hb]
    · cases hf : s.dstFocused
      · rcases hfind : blocks.find? (fun b => b.id == bid) with _ | b
        · simp [refreshBlocksOk, hb, hf, hfind]
        · simp [refreshBlocksOk, hb, hf, hfind]
      · simp [refreshBlocksOk, hb, hf]

theorem refreshBlocksOk_false_buffers (s : AppState) (blocks : List Block) :
    (refreshBlocksOk s false blocks).srcText = s.srcText ∧
    (refreshBlocksOk s false blocks).dstText = s.dstText := by
  exact ⟨rfl, rfl⟩

theorem refreshBlocksOk_focused (s : AppState) (blocks : List Block)
    (h : s.dstFocused = true) :
    (refreshBlocksOk s true blocks).srcText = s.srcText ∧
    (refreshBlocksOk s true blocks).dstText = s.dstText := by
  rcases hb : s.currentBlockId with _ | bid
  · simp [refreshBlocksOk, hb]
  · simp [refreshBlocksOk, hb, h]

theorem refreshMany_focused (snaps : List (List Block)) (s : AppState)
    (h : s.dstFocused = true) :
    (refreshMany s snaps).srcText = s.srcText ∧
    (refreshMany s snaps).dstText = s.dstText := by
  induction snaps generalizing s with
  | nil => exact ⟨rfl, rfl⟩
  | cons bs rest ih =>
    have hf : (refreshBlocksOk s true bs).dstFocused = true := by
      rw [(refreshBlocksOk_fields s true bs).2.2.2.2.2.2.1, h]
    have hbuf := refreshBlocksOk_focused s bs h
    have := ih (refreshBlocksOk s true bs) hf
    exact ⟨by rw [refreshMany, this.1, hbuf.1], by rw [refreshMany, this.2, hbuf.2]⟩

theorem runFinalRefresh_fields (s : AppState) (r : Except String (List Block)) :
    (runFinalRefresh s r).pollTaskTimer = s.pollTaskTimer ∧
    (runFinalRefresh s r).pollBlocksTimer = s.pollBlocksTimer ∧
    (runFinalRefresh s r).pendingFinal = s.pendingFinal - 1 ∧
    (runFinalRefresh s r).currentTaskId = s.currentTaskId ∧
    (runFinalRefresh s r).blocksLoaded = s.blocksLoaded := by
  unfold runFinalRefresh refreshBlocksF
  cases hn : s.currentTaskId.isNone
  · rcases r with msg | blocks
    · simp [hn]
    · simp only [hn, Bool.false_eq_true, if_false]
      have hfr := refreshBlocksOk_fields
        { s with pendingFinal := s.pendingFinal - 1 } false blocks
      exact ⟨hfr.2.2.1, hfr.2.2.2.1, hfr.2.2.2.2.2.1, hfr.1, hfr.2.2.2.2.1⟩
  · simp [hn]

theorem pollTaskTick_taskId (s : AppState) (r : Except String TaskResp) :
    (pollTaskTick s r).1.currentTaskId = s.currentTaskId ∧
    (pollTaskTick s r).1.blocksLoaded = s.blocksLoaded := by
  unfold pollTaskTick
  cases hn : s.currentTaskId.isNone
  · rcases r with msg | t
    · simp [hn]
    · simp only [hn, Bool.false_eq_true, if_false]
      repeat' split
      all_goals simp [stopPolling, setProgress]
  · simp [hn]

theorem pollBlocksTick_taskId (s : AppState) (r : Except String (List Block)) :
    (pollBlocksTick s r).1.currentTaskId = s.currentTaskId ∧
    (pollBlocksTick s r).1.blocksLoaded = s.blocksLoaded := by
  unfold pollBlocksTick refreshBlocksF
  cases hn : s.currentTaskId.isNone
  · rcases r with msg | blocks
    · simp only [hn, Bool.false_eq_true, if_false]
      split <;> simp
    · simp only [hn, Bool.false_eq_true, if_false]
      split
      · simp
      · have hfr := refreshBlocksOk_fields s true blocks
        exact ⟨hfr.1, hfr.2.2.2.2.1⟩
  · simp [hn]

theorem applyEv_taskId (s : AppState) (e : Ev) :
    (applyEv s e).currentTaskId = s.currentTaskId := by
  rcases e with r | r | r
  · exact (pollTaskTick_taskId s r).1
  · exact (pollBlocksTick_taskId s r).1
  · exact (runFinalRefresh_fields s r).2.2.2.1

theorem run_taskId {s s' : AppState} {evs : List Ev} (h : Run s evs s') :
    s'.currentTaskId = s.currentTaskId := by
  induction h with
  | nil s => rfl
  | cons hen hrun ih => rw [ih, applyEv_taskId]

theorem refreshBlocksOk_loaded (s : AppState) (k : Bool) (blocks : List Block) :
    (refreshBlocksOk s k blocks).blocksLoaded = s.blocksLoaded :=
  (refreshBlocksOk_fields s k blocks).2.2.2.2.1

theorem run_timers_off {s s' : AppState} {evs : List Ev} (hrun : Run s evs s') :
    s.pollTaskTimer = false → s.pollBlocksTimer = false →
    countTaskTicks evs = 0 ∧ countBlocksTicks evs = 0 ∧
    countFinalFires evs ≤ s.pendingFinal ∧
    s'.pollTaskTimer = false ∧ s'.pollBlocksTimer = false := by
  induction hrun with
  | nil s =>
    intro ht hb
    exact ⟨rfl, rfl, Nat.zero_le _, ht, hb⟩
  | cons hen hrun ih =>
    intro ht hb
    rename_i s s' e evs
    cases e with
    | taskTick r => simp [enabledEv, ht] at hen
    | blocksTick r => simp [enabledEv, hb] at hen
    | finalFire r =>
      have hf := runFinalRefresh_fields s r
      have hpos : 0 < s.pendingFinal := by
        simpa [enabledEv] using hen
      have ht' : (applyEv s (.finalFire r)).pollTaskTimer = false := by
        rw [applyEv, hf.1, ht]
      have hb' : (applyEv s (.finalFire r)).pollBlocksTimer = false := by
        rw [applyEv, hf.2.1, hb]
      have ihr := ih ht' hb'
      have hpend : (applyEv s (.finalFire r)).pendingFinal = s.pendingFinal - 1 := by
        rw [applyEv, hf.2.2.1]
      refine ⟨?_, ?_, ?_, ihr.2.2.2.1, ihr.2.2.2.2⟩
      · simpa [countTaskTicks] using ihr.1
      · simpa [countBlocksTicks] using ihr.2.1
      · have hle := ihr.2.2.1
        rw [hpend] at hle
        simp only [countFinalFires]
        omega

/-- C4: for every progress value received, the displayed fraction is
`clamp(p, 0, 1)`; NaN and the infinities are displayed as 0, with the
percent label reading `0%`. -/
theorem progress_clamped (s : AppState) (q : ℚ) (st : String) :
    ((setProgress s (.num q) st).progressBarVal = max 0 (min 1 q)) ∧
    ((setProgress s .nan st).progressBarVal = 0) ∧
    ((setProgress s .inf st).progressBarVal = 0) ∧
    ((setProgress s .negInf st).progressBarVal = 0) ∧
    ((setProgress s .nan st).progressPct = "0%") ∧
    ((setProgress s .inf st).progressPct = "0%") ∧
    ((setProgress s .negInf st).progressPct = "0%") := by
  have hval : max 0 (min 1 (0:ℚ)) = 0 := by norm_num
  have hpct : toString (jsRound (max 0 (min 1 (0:ℚ)) * 100)) ++ "%" = "0%" := by
    have h0 : jsRound (max 0 (min 1 (0:ℚ)) * 100) = 0 := by norm_num [jsRound]
    rw [h0]
    rfl
  exact ⟨rfl, hval, hval, hval, hpct, hpct, hpct⟩

/-- C6: a background poll tick whose fetch fails leaves the state exactly
unchanged — progress display, block list, buffers, cache and both timers
included — so the next scheduled tick simply retries. -/
theorem poll_failure_swallowed (s : AppState) (msg : String) :
    ((pollTaskTick s (.error msg)).1 = s) ∧
    ((pollBlocksTick s (.error msg)).1 = s) := by
  constructor
  · unfold pollTaskTick
    split <;> rfl
  · unfold pollBlocksTick refreshBlocksF
    dsimp only
    repeat' split
    all_goals first | rfl | simp_all

/-- C10: after a failed upload in the `createTask` handler the reset is
not rolled back — polling is stopped and cache, selection, buffers and
the loaded flag stay cleared — but the current task id keeps its previous
value, so subsequent actions still target the old task. -/
theorem failed_upload_partial_reset (s : AppState) (msg : String) :
    ((createTask s true (.error msg)).1.currentTaskId = s.currentTaskId) ∧
    ((createTask s true (.error msg)).1.pollTaskTimer = false) ∧
    ((createTask s true (.error msg)).1.pollBlocksTimer = false) ∧
    ((createTask s true (.error msg)).1.blocksCache = []) ∧
    ((createTask s true (.error msg)).1.blocksLoaded = false) ∧
    ((createTask s true (.error msg)).1.currentBlockId = none) ∧
    ((createTask s true (.error msg)).1.srcText = "") ∧
    ((createTask s true (.error msg)).1.dstText = "") ∧
    ((createTask s true (.error msg)).1.taskHint = msg) ∧
    ((createTask s true (.error msg)).2 = true) :=
  ⟨rfl, rfl, rfl, rfl, rfl, rfl, rfl, rfl, rfl, rfl⟩

/-- C1: a block refresh running with `preserveEditFocus` true while a
block is selected and present in the snapshot leaves the displayed
source/destination buffers unchanged whenever the destination input holds
focus — over arbitrarily many consecutive refresh ticks — and otherwise
sets them to exactly the snapshot's `source_text` and `translated_text`
for that block. -/
theorem refresh_focus_rule (s : AppState) (snaps : List (List Block))
    (blocks : List Block) (b : Block)
    (hsel : s.currentBlockId = some b.id)
    (hfind : blocks.find? (fun x => x.id == b.id) = some b) :
    (s.dstFocused = true →
      (refreshBlocksOk s true blocks).srcText = s.srcText ∧
      (refreshBlocksOk s true blocks).dstText = s.dstText ∧
      (refreshMany s snaps).srcText = s.srcText ∧
      (refreshMany s snaps).dstText = s.dstText) ∧
    (s.dstFocused = false →
      (refreshBlocksOk s true blocks).srcText = b.source_text.getD "" ∧
      (refreshBlocksOk s true blocks).dstText = b.translated_text.getD "") := by
  constructor
  · intro h
    have h1 := refreshBlocksOk_focused s blocks h
    have h2 := refreshMany_focused snaps s h
    exact ⟨h1.1, h1.2, h2.1, h2.2⟩
  · intro h
    simp [refreshBlocksOk, hsel, h, hfind]

theorem refresh_focus_rule_inst :
    (({ state0 with currentBlockId := some "b1" } : AppState).currentBlockId
        = some blockA.id) ∧
    ([blockA].find? (fun x => x.id == blockA.id) = some blockA) ∧
    ((refreshBlocksOk { state0 with currentBlockId := some "b1" } true
        [blockA]).srcText = "hello") ∧
    ((refreshBlocksOk { state0 with currentBlockId := some "b1" } true
        [blockA]).dstText = "bonjour") := by
  have h := refresh_focus_rule { state0 with currentBlockId := some "b1" }
    [] [blockA] blockA rfl (by decide)
  have h2 := h.2 rfl
  exact ⟨rfl, by decide, h2.1, h2.2⟩

/-- C9: the final block refresh queued on `finished` runs with
`preserveEditFocus` false, so it leaves the edit buffers, the selection
and the progress display unchanged even when the destination input is not
focused, updating only the cache, the rendered summary list and the
completion counts. -/
theorem final_refresh_frame (s : AppState) (tid : String) (blocks : List Block)
    (htask : s.currentTaskId = some tid) :
    ((runFinalRefresh s (.ok blocks)).srcText = s.srcText) ∧
    ((runFinalRefresh s (.ok blocks)).dstText = s.dstText) ∧
    ((runFinalRefresh s (.ok blocks)).currentBlockId = s.currentBlockId) ∧
    ((runFinalRefresh s (.ok blocks)).progressBarVal = s.progressBarVal) ∧
    ((runFinalRefresh s (.ok blocks)).progressStatus = s.progressStatus) ∧
    ((runFinalRefresh s (.ok blocks)).progressHint = s.progressHint) ∧
    ((runFinalRefresh s (.ok blocks)).blockHint = s.blockHint) ∧
    ((runFinalRefresh s (.ok blocks)).blocksCache = blocks) ∧
    ((runFinalRefresh s (.ok blocks)).blockList = blocks.map renderItem) ∧
    ((runFinalRefresh s (.ok blocks)).progressCounts = countsLine blocks) := by
  have hn : s.currentTaskId.isNone = false := by rw [htask]; rfl
  unfold runFinalRefresh refreshBlocksF
  simp only [hn, Bool.false_eq_true, if_false]
  have hfr := refreshBlocksOk_fields
    { s with pendingFinal := s.pendingFinal - 1 } false blocks
  have hbuf := refreshBlocksOk_false_buffers
    { s with pendingFinal := s.pendingFinal - 1 } blocks
  exact ⟨hbuf.1, hbuf.2, hfr.2.1, hfr.2.2.2.2.2.2.2.1,
    hfr.2.2.2.2.2.2.2.2.1, hfr.2.2.2.2.2.2.2.2.2.1,
    hfr.2.2.2.2.2.2.2.2.2.2.1, hfr.2.2.2.2.2.2.2.2.2.2.2.2.1,
    hfr.2.2.2.2.2.2.2.2.2.2.2.2.2.2, hfr.2.2.2.2.2.2.2.2.2.2.2.2.2.1⟩

theorem final_refresh_frame_inst :
    (editState.currentTaskId = some "t1") ∧
    ((runFinalRefresh editState (.ok [blockA])).srcText = "s") ∧
    ((runFinalRefresh editState (.ok [blockA])).dstText = "d") ∧
    ((runFinalRefresh editState (.ok [blockA])).blocksCache = [blockA]) := by
  have h := final_refresh_frame editState "t1" [blockA] rfl
  exact ⟨rfl, h.1, h.2.1, h.2.2.2.2.2.2.2.1⟩

/-- C2: a status poll returning `finished` queues exactly one final block
refresh and stops both timers in that same tick; from the resulting state
no further status poll can fire and the queued final refresh fires at
most once along any scheduler run. -/
theorem finished_stops_polling (s : AppState) (t : TaskResp) (tid : String)
    (htask : s.currentTaskId = some tid)
    (hfin : t.status = some "finished")
    (hp : s.pendingFinal = 0) :
    ((pollTaskTick s (.ok t)).1.pendingFinal = 1) ∧
    ((pollTaskTick s (.ok t)).1.pollTaskTimer = false) ∧
    ((pollTaskTick s (.ok t)).1.pollBlocksTimer = false) ∧
    (∀ (evs : List Ev) (s' : AppState),
        Run (pollTaskTick s (.ok t)).1 evs s' →
        countTaskTicks evs = 0 ∧ countFinalFires evs ≤ 1) := by
  have hn : s.currentTaskId.isNone = false := by rw [htask]; rfl
  have hkey : ((pollTaskTick s (.ok t)).1.pendingFinal = 1) ∧
      ((pollTaskTick s (.ok t)).1.pollTaskTimer = false) ∧
      ((pollTaskTick s (.ok t)).1.pollBlocksTimer = false) := by
    unfold pollTaskTick
    rcases t with ⟨prog, st, err⟩
    simp only at hfin
    subst hfin
    simp only [hn, Bool.false_eq_true, if_false]
    rcases err with _ | e
    · simp [stopPolling, setProgress, hp]
    · by_cases he : e = "" <;> simp [stopPolling, setProgress, hp, he]
  refine ⟨hkey.1, hkey.2.1, hkey.2.2, ?_⟩
  intro evs s' hrun
  have h := run_timers_off hrun hkey.2.1 hkey.2.2
  refine ⟨h.1, ?_⟩
  have hle := h.2.2.1
  rw [hkey.1] at hle
  exact hle

theorem finished_stops_polling_inst :
    (runningState.currentTaskId = some "t1") ∧
    (finishedResp.status = some "finished") ∧
    (runningState.pendingFinal = 0) ∧
    ((pollTaskTick runningState (.ok finishedResp)).1.pendingFinal = 1) ∧
    ((pollTaskTick runningState (.ok finishedResp)).1.pollTaskTimer = false) ∧
    ((pollTaskTick runningState (.ok finishedResp)).1.pollBlocksTimer = false) := by
  have h := finished_stops_polling runningState finishedResp "t1" rfl rfl rfl
  exact ⟨rfl, rfl, rfl, h.1, h.2.1, h.2.2.1⟩

/-- C3: task creation stops both timers and, in the same synchronous
block, clears the cache, the loaded flag, the selection and both buffers;
after a failed upload no poll tick of either loop can fire, and after a
successful upload every state reachable by scheduler events carries the
new task id, so no tick applies an update for the old task. -/
theorem createTask_reset_isolation (s : AppState) (msg : String)
    (out : UploadResp) :
    ((createTaskReset s).pollTaskTimer = false) ∧
    ((createTaskReset s).pollBlocksTimer = false) ∧
    ((createTaskReset s).blocksCache = []) ∧
    ((createTaskReset s).blocksLoaded = false) ∧
    ((createTaskReset s).currentBlockId = none) ∧
    ((createTaskReset s).srcText = "") ∧
    ((createTaskReset s).dstText = "") ∧
    ((createTask s true (.error msg)).1
        = { createTaskReset s with taskHint := msg }) ∧
    (∀ (evs : List Ev) (s' : AppState),
        Run (createTask s true (.error msg)).1 evs s' →
        countTaskTicks evs = 0 ∧ countBlocksTicks evs = 0) ∧
    ((createTask s true (.ok out)).1.currentTaskId = some out.task_id) ∧
    (∀ (evs : List Ev) (s' : AppState),
        Run (createTask s true (.ok out)).1 evs s' →
        s'.currentTaskId = some out.task_id) := by
  refine ⟨rfl, rfl, rfl, rfl, rfl, rfl, rfl, rfl, ?_, rfl, ?_⟩
  · intro evs s' hrun
    have h := run_timers_off hrun rfl rfl
    exact ⟨h.1, h.2.1⟩
  · intro evs s' hrun
    rw [run_taskId hrun]
    rfl

theorem createTask_reset_isolation_inst :
    ((createTask runningState true (.error "upload failed")).1
        = { createTaskReset runningState with taskHint := "upload failed" }) ∧
    ((createTask runningState true (.ok ⟨"t2", 3⟩)).1.currentTaskId
        = some "t2") := by
  have h := createTask_reset_isolation runningState "upload failed" ⟨"t2", 3⟩
  exact ⟨h.2.2.2.2.2.2.2.1, h.2.2.2.2.2.2.2.2.2.1⟩

/-- C5 counterexample: a successful blocks poll whose snapshot repeats an
id yields a cache with two entries for that id — the code copies the
snapshot verbatim and never deduplicates, so "at most one entry per id"
fails for such a snapshot. -/
theorem dup_snapshot_dup_cache :
    ¬ (((pollBlocksTick dupState (.ok [blockB, blockB])).1.blocksCache.map
        (fun b => b.id)).Nodup) := by
  decide

/-- C5 amended: after every successful blocks poll the cache is replaced
wholesale by the fetched snapshot in one substitution; consequently the
cache has at most one entry per id whenever the snapshot does (which the
backend's data model guarantees, but the client does not enforce). -/
theorem cache_wholesale (s : AppState) (blocks : List Block) (tid : String)
    (htask : s.currentTaskId = some tid)
    (hloaded : s.blocksLoaded = true)
    (hnodup : (blocks.map (fun b => b.id)).Nodup) :
    ((pollBlocksTick s (.ok blocks)).1.blocksCache = blocks) ∧
    (((pollBlocksTick s (.ok blocks)).1.blocksCache.map
        (fun b => b.id)).Nodup) := by
  have hn : s.currentTaskId.isNone = false := by rw [htask]; rfl
  have hc : (pollBlocksTick s (.ok blocks)).1.blocksCache = blocks := by
    unfold pollBlocksTick refreshBlocksF
    simp only [hn, Bool.false_eq_true, if_false, hloaded, Bool.not_true]
    exact (refreshBlocksOk_fields s true blocks).2.2.2.2.2.2.2.2.2.2.2.2.1
  exact ⟨hc, by rw [hc]; exact hnodup⟩

theorem cache_wholesale_inst :
    (dupState.currentTaskId = some "t1") ∧
    (dupState.blocksLoaded = true) ∧
    (([blockA, blockB].map (fun b => b.id)).Nodup) ∧
    ((pollBlocksTick dupState (.ok [blockA, blockB])).1.blocksCache
        = [blockA, blockB]) := by
  have h := cache_wholesale dupState [blockA, blockB] "t1" rfl rfl (by decide)
  exact ⟨rfl, rfl, by decide, h.1⟩

/-- C8: with no current task, the translate / load-blocks / export
handlers set the inline precondition message and issue no network call;
with no current task or no selected block, the save handler does
likewise. -/
theorem precondition_errors (s s2 : AppState)
    (rt : Except String String) (rb : Except String (List Block))
    (re : Except String Unit) (rp : Except String String)
    (rr : Except String (List Block))
    (h1 : s.currentTaskId = none)
    (h2 : s2.currentTaskId = none ∨ s2.currentBlockId = none) :
    (runTranslate s rt
        = ({ s with progressHint := "Please create a task first." }, false)) ∧
    (loadBlocks s rb
        = ({ s with blockHint := "Please create a task first." }, false)) ∧
    (exportDocx s re
        = ({ s with progressHint := "Please create a task first." }, false)) ∧
    (saveBlock s2 rp rr
        = ({ s2 with blockHint := "Please select a block first." }, false)) := by
  refine ⟨?_, ?_, ?_, ?_⟩
  · unfold runTranslate
    simp [h1]
  · unfold loadBlocks
    simp [h1]
  · unfold exportDocx
    simp [h1]
  · unfold saveBlock
    rcases h2 with h2 | h2 <;> simp [h2]

theorem precondition_errors_inst :
    (state0.currentTaskId = none) ∧
    (state0.currentTaskId = none ∨ state0.currentBlockId = none) ∧
    (runTranslate state0 (.ok "x")
        = ({ state0 with progressHint := "Please create a task first." }, false)) ∧
    (saveBlock state0 (.ok "y") (.ok [])
        = ({ state0 with blockHint := "Please select a block first." }, false)) := by
  have h := precondition_errors state0 state0 (.ok "x") (.ok []) (.ok ())
    (.ok "y") (.ok []) rfl (Or.inl rfl)
  exact ⟨rfl, Or.inl rfl, h.1, h.2.2.2⟩

/-- C7: a blocks-poll tick fired without a current task or without the
loaded flag performs no fetch and changes no state; and among the
handlers only the load-blocks click can switch the loaded flag on, so
the flag is set only by that explicit action. -/
theorem blocksPoll_guard (s : AppState) (r : Except String (List Block))
    (h : s.currentTaskId = none ∨ s.blocksLoaded = false) :
    (pollBlocksTick s r = (s, false)) ∧
    (∀ (s2 : AppState) (a : UAction), a.isLoadBlocks = false →
        s2.blocksLoaded = false → (applyAction s2 a).blocksLoaded = false) := by
  constructor
  · unfold pollBlocksTick
    rcases h with h | h
    · simp [h]
    · cases hn : s.currentTaskId.isNone <;> simp [hn, h]
  · intro s2 a ha hl
    cases a with
    | createTaskA hf r2 =>
      cases hf
      · simpa [applyAction, createTask] using hl
      · rcases r2 with m | out <;> rfl
    | runTranslateA r2 =>
      show (runTranslate s2 r2).1.blocksLoaded = false
      unfold runTranslate
      repeat' split
      all_goals simp [startPolling, stopPolling, hl]
    | loadBlocksA r2 =>
      simp [UAction.isLoadBlocks] at ha
    | saveBlockA rp rr =>
      show (saveBlock s2 rp rr).1.blocksLoaded = false
      unfold saveBlock refreshBlocksF
      repeat' split
      all_goals simp_all [refreshBlocksOk_loaded]
    | exportA r2 =>
      show (exportDocx s2 r2).1.blocksLoaded = false
      unfold exportDocx
      repeat' split
      all_goals simp [hl]
    | selectA b =>
      simpa [applyAction, selectBlock] using hl

theorem blocksPoll_guard_inst :
    (state0.currentTaskId = none ∨ state0.blocksLoaded = false) ∧
    (pollBlocksTick state0 (.ok [blockA]) = (state0, false)) := by
  have h := blocksPoll_guard state0 (.ok [blockA]) (Or.inl rfl)
  exact ⟨Or.inl rfl, h.1⟩
